import Mathlib

/-!
# Verification of the go-lcsc client-side request orchestration layer

Shallow embedding of the retry policy, the rate limiter, the request
orchestrator (`doRequest`) and the product-level entry points
(`KeywordSearch`, `GetProductDetails`) of the go-lcsc repository.

Modelling conventions:
* Go `float64` arithmetic is modelled exactly over `ℚ`; `time.Duration`
  values are rationals counted in nanoseconds, wall-clock instants used by
  the rate limiter are rationals counted in seconds.
* `rand.Float64()` draws are explicit parameters (`draw`), constrained to
  `[0, 1]` where a theorem needs the range.
* Fallible Go calls return `Option`/`Except`; JSON (un)marshalling and the
  HTTP transport are oracle functions supplied in an environment record,
  since the claims do not depend on their semantics.
* Side effects (transport attempts, rate-limiter tokens, backoff sleeps,
  cache reads/writes) are tracked in an explicit `Effects` record.
-/

namespace Lcsc

/-- One millisecond in nanoseconds (`time.Millisecond`). -/
def msNs : ℚ := 1000000

/-- One second in nanoseconds (`time.Second`). -/
def secondNs : ℚ := 1000000000

/-- One minute in nanoseconds (`time.Minute`). -/
def minuteNs : ℚ := 60000000000

/-! ## Error model

Go errors as seen by the retry classifier.  `shouldRetry` and its helpers
only perform the type assertions `err.(net.Error)`, `err.(*net.OpError)` and
`err.(*net.DNSError)` and call `Timeout()`, so an error is modelled by
whether it implements `net.Error`, which concrete net type it is, and what
its `Timeout()` method returns. -/

/-- Which concrete type a `net.Error` value has, as tested by the type
assertions in `isTemporaryNetErr`. -/
inductive NetErrKind
  | opError
  | dnsError
  | otherNet
deriving DecidableEq, Repr

/-- A Go error value: either some `net.Error` (with its `Timeout()` result)
or any other (non-net) error, e.g. a `fmt.Errorf` wrapper. -/
inductive GoErr
  | net (kind : NetErrKind) (timeout : Bool)
  | plain
deriving DecidableEq, Repr

/-! ## Retry policy (source: retry file, `shouldRetry` and friends) -/

/-- `isTemporaryNetErr`: the source returns `false` for `*net.OpError`,
`false` for `*net.DNSError`, and `false` in the fall-through — it never
recognizes a non-timeout error as temporary. -/
def isTemporaryNetErr : NetErrKind → Bool
  | .opError => false
  | .dnsError => false
  | .otherNet => false

/-- `isTemporaryNetworkError(err)`: the `err.(net.Error)` type assertion
followed by `netErr.Timeout() || isTemporaryNetErr(netErr)`; a nil or
non-net error yields `false`. -/
def isTemporaryNetworkError : Option GoErr → Bool
  | some (.net kind timeout) => timeout || isTemporaryNetErr kind
  | _ => false

/-- `isTimeoutError(err)`: the `err.(net.Error)` type assertion followed by
`netErr.Timeout()`; a nil or non-net error yields `false`. -/
def isTimeoutError : Option GoErr → Bool
  | some (.net _ timeout) => timeout
  | _ => false

/-- The `switch statusCode` at the end of `shouldRetry`: 429, 500, 502, 503
and 504 return `true`, everything else falls through to `false`. -/
def statusSwitch (statusCode : ℤ) : Bool :=
  if statusCode = 429 then true
  else if statusCode = 500 then true
  else if statusCode = 502 then true
  else if statusCode = 503 then true
  else if statusCode = 504 then true
  else false

/-- `shouldRetry(err, statusCode)`: when `err != nil` the two error
predicates are consulted first and short-circuit to `true`; only then is the
status code switched on. -/
def shouldRetry (err : Option GoErr) (statusCode : ℤ) : Bool :=
  match err with
  | some e =>
      if isTemporaryNetworkError (some e) then true
      else if isTimeoutError (some e) then true
      else statusSwitch statusCode
  | none => statusSwitch statusCode

/-- `RetryConfig`, durations in nanoseconds (`time.Duration`). -/
structure RetryConfig where
  MaxRetries : ℕ
  InitialBackoff : ℚ
  MaxBackoff : ℚ
  Multiplier : ℚ
  Jitter : ℚ
deriving DecidableEq, Repr

/-- `DefaultRetryConfig()`. -/
def DefaultRetryConfig : RetryConfig :=
  { MaxRetries := 3
    InitialBackoff := 500 * msNs
    MaxBackoff := 30 * secondNs
    Multiplier := 2
    Jitter := 1/10 }

/-- `NoRetry()`. -/
def NoRetry : RetryConfig :=
  { MaxRetries := 0, InitialBackoff := 0, MaxBackoff := 0, Multiplier := 0, Jitter := 0 }

/-- The source's `pow(base, exp)`: a loop `for i := 0; i < int(exp); i++`
multiplying an accumulator that starts at `1.0`; for `exp = float64(n)` with
`n : ℤ` the loop runs `max n 0` times, hence `base ^ n.toNat`. -/
def pow (base : ℚ) (exp : ℤ) : ℚ :=
  base ^ exp.toNat

/-- `calculateBackoff(attempt)` with the `rand.Float64()` draw made an
explicit parameter `draw`: the raw exponential `InitialBackoff *
pow(Multiplier, attempt)` gets the jitter `backoff * Jitter *
(draw*2 - 1)` added when `Jitter > 0`, and only afterwards is the result
capped at `MaxBackoff`. -/
def calculateBackoff (c : RetryConfig) (attempt : ℤ) (draw : ℚ) : ℚ :=
  let backoff := c.InitialBackoff * pow c.Multiplier attempt
  let backoff :=
    if 0 < c.Jitter then backoff + backoff * c.Jitter * (draw * 2 - 1)
    else backoff
  if c.MaxBackoff < backoff then c.MaxBackoff else backoff

/-! ## Request orchestrator (`doRequest`, source: client file)

The HTTP body is opaque to every claim, so response bodies are `String`s.
`executeRequest` returns `(respBody, statusCode, err)`; `doRequest` only
distinguishes `err == nil` (success) from `err != nil` (failure carrying a
status code), so one attempt's outcome is: -/

/-- Outcome of one `executeRequest` call: `ok body` stands for
`(body, 200, nil)`, `fail e s` for `(nil, s, e)` with `e ≠ nil`. -/
inductive ExecResult
  | ok (body : String)
  | fail (e : GoErr) (status : ℤ)
deriving DecidableEq, Repr

/-- The error component of an attempt outcome (the value `doRequest` stores
in `lastErr`). -/
def ExecResult.errOf : ExecResult → Option GoErr
  | .ok _ => none
  | .fail e _ => some e

/-- Instrumentation: the observable side effects of one `doRequest` /
products-layer call. `attempts` counts `executeRequest` calls, `tokens`
counts successful `rateLimiter.Wait` acquisitions, `sleeps` lists the
backoff durations slept, `cacheGets` counts `cache.Get` calls and
`cacheSets` lists `cache.Set` calls as `(key, value, ttlNs)`. -/
structure Effects where
  attempts : ℕ
  tokens : ℕ
  sleeps : List ℚ
  cacheGets : ℕ
  cacheSets : List (String × String × ℚ)
deriving DecidableEq, Repr

/-- No side effects yet. -/
def Effects.none : Effects :=
  { attempts := 0, tokens := 0, sleeps := [], cacheGets := 0, cacheSets := [] }

/-- Errors `doRequest` can return (cancellation paths are not exercised by
the claims and the sleep / rate-limiter oracles always succeed here):
`execErr` is the non-retryable error returned directly, `maxRetriesExceeded`
the `fmt.Errorf("max retries exceeded: %w", lastErr)` wrapper. -/
inductive DoErr
  | execErr (e : GoErr) (status : ℤ)
  | maxRetriesExceeded (lastErr : Option GoErr)
deriving DecidableEq, Repr

/-- The client state `doRequest` reads: whether `c.cache != nil`, the
currency tag, the cache content (`cache.Get` as a function from key to hit)
and the transport (outcome of the i-th `executeRequest` call, 0-based). -/
structure ClientEnv where
  hasCache : Bool
  currency : String
  cacheLookup : String → Option String
  transport : ℕ → ExecResult

/-- `buildCacheKey(method, path, params)`:
`method + ":" + currency + ":" + path` plus `"?" + params.Encode()` when
params are non-nil; `params` is modelled by its already-encoded form. -/
def buildCacheKey (currency method path : String) (params : Option String) : String :=
  method ++ ":" ++ currency ++ ":" ++ path ++
    (match params with
     | some p => "?" ++ p
     | none => "")

/-- The retry loop of `doRequest`
(`for attempt := 0; attempt <= MaxRetries; attempt++`), structurally
recursing on `remaining`, the number of loop iterations left
(`MaxRetries + 1 - attempt`, so `remaining = 0` is loop exit).  Each
iteration: backoff sleep when `attempt > 0` (jitter draws supplied by
`draws`), rate-limiter wait, one transport attempt, then the
`shouldRetry` classification. On success the body is cached for
`5*time.Minute` when a cache key was computed. -/
def doRequestLoop (cfg : RetryConfig) (transport : ℕ → ExecResult) (draws : ℕ → ℚ)
    (cacheKey : String) (hasCache : Bool) :
    ℕ → ℕ → Option GoErr → Effects → Except DoErr String × Effects
  | _, 0, lastErr, eff => (.error (.maxRetriesExceeded lastErr), eff)
  | attempt, remaining + 1, _lastErr, eff =>
    let eff : Effects :=
      { attempts := eff.attempts + 1
        tokens := eff.tokens + 1
        sleeps := eff.sleeps ++
          (if attempt > 0 then [calculateBackoff cfg ((attempt : ℤ) - 1) (draws attempt)]
           else [])
        cacheGets := eff.cacheGets
        cacheSets := eff.cacheSets }
    match transport attempt with
    | .ok body =>
        (.ok body,
          if cacheKey ≠ "" ∧ hasCache then
            { eff with cacheSets := eff.cacheSets ++ [(cacheKey, body, 5 * minuteNs)] }
          else eff)
    | .fail e s =>
        if shouldRetry (some e) s then
          doRequestLoop cfg transport draws cacheKey hasCache (attempt + 1) remaining (some e) eff
        else
          (.error (.execErr e s), eff)

/-- `doRequest(ctx, method, path, params, body)`: the GET-plus-cache fast
path computes the cache key and returns a hit immediately; otherwise the
retry loop runs with `MaxRetries + 1` iterations.  The request body does not
influence anything the claims observe and is omitted. -/
def doRequest (env : ClientEnv) (cfg : RetryConfig) (draws : ℕ → ℚ)
    (method path : String) (params : Option String) :
    Except DoErr String × Effects :=
  if method = "GET" ∧ env.hasCache then
    let cacheKey := buildCacheKey env.currency method path params
    let eff := { Effects.none with cacheGets := 1 }
    match env.cacheLookup cacheKey with
    | some cached => (.ok cached, eff)
    | none =>
        doRequestLoop cfg env.transport draws cacheKey env.hasCache 0 (cfg.MaxRetries + 1)
          Option.none eff
  else
    doRequestLoop cfg env.transport draws "" env.hasCache 0 (cfg.MaxRetries + 1)
      Option.none Effects.none

/-! ## Rate limiter (source: ratelimit.go)

Wall-clock instants are rationals in seconds (`time.Time` /
`Sub(...).Seconds()`).  `Wait` loops: under the lock it lazily refills from
the elapsed time, takes a token if one is available, otherwise sleeps and
re-enters.  A run of the loop is driven by a schedule: for each iteration
the `time.Now()` value observed at its start, and whether `ctx.Done()` wins
the `select` during that iteration's sleep. -/

/-- The token-bucket state of `RateLimiter` (the mutex is implicit: the
model runs one caller). -/
structure RateLimiter where
  tokens : ℚ
  maxTokens : ℚ
  refillRate : ℚ
  lastRefill : ℚ
deriving DecidableEq, Repr

/-- `NewRateLimiter(requestsPerSecond)`, with `time.Now()` passed
explicitly. -/
def NewRateLimiter (requestsPerSecond : ℚ) (now : ℚ) : RateLimiter :=
  { tokens := requestsPerSecond
    maxTokens := requestsPerSecond
    refillRate := requestsPerSecond
    lastRefill := now }

/-- The refill step at the top of each `Wait` iteration: add
`elapsed * refillRate`, cap at `maxTokens`, stamp `lastRefill`. -/
def RateLimiter.refill (r : RateLimiter) (now : ℚ) : RateLimiter :=
  let tokens := r.tokens + (now - r.lastRefill) * r.refillRate
  let tokens := if tokens > r.maxTokens then r.maxTokens else tokens
  { r with tokens := tokens, lastRefill := now }

/-- How one `Wait` call ended: token acquired (`return nil`) or context
cancelled during the sleep (`return ctx.Err()`). -/
inductive WaitOutcome
  | acquired
  | cancelled
deriving DecidableEq, Repr

/-- One scheduled iteration of the `Wait` loop: the `time.Now()` observed at
its start, and whether `ctx.Done()` fires during its sleep (only consulted
when the iteration actually sleeps). -/
structure WaitStep where
  now : ℚ
  cancelDuringSleep : Bool
deriving DecidableEq, Repr

/-- `Wait(ctx)` driven by a schedule of iterations. Returns the outcome
(`none` when the schedule ran out while still looping), the final bucket
state, and the number of token decrements performed. -/
def RateLimiter.wait :
    RateLimiter → List WaitStep → Option WaitOutcome × RateLimiter × ℕ
  | r, [] => (none, r, 0)
  | r, step :: rest =>
    let r := r.refill step.now
    if r.tokens ≥ 1 then
      (some .acquired, { r with tokens := r.tokens - 1 }, 1)
    else if step.cancelDuringSleep then
      (some .cancelled, r, 0)
    else
      r.wait rest

/-! ## Cache configuration (source: the cache file, absent from src/)

Modelled from the spec: the repository's cache component (the file defining
`MemoryCache` and `CacheConfig`) is not under src/; only its tests are.
`TestDefaultCacheConfig` pins `DefaultCacheConfig()` to `Enabled`,
`SearchTTL = 5*time.Minute`, `DetailsTTL = 10*time.Minute`, matching the
spec's endpoint-specific TTLs. -/

/-- Modelled from the spec: `CacheConfig` with per-endpoint TTLs
(nanoseconds), as required by `TestDefaultCacheConfig` — the defining cache
file is missing from src/. -/
structure CacheConfig where
  Enabled : Bool
  SearchTTL : ℚ
  DetailsTTL : ℚ
deriving DecidableEq, Repr

/-- Modelled from the spec: `DefaultCacheConfig()` returns the enabled
configuration with a 5-minute search TTL and a 10-minute details TTL, the
values asserted by `TestDefaultCacheConfig`. -/
def DefaultCacheConfig : CacheConfig :=
  { Enabled := true, SearchTTL := 5 * minuteNs, DetailsTTL := 10 * minuteNs }

/-! ## Products layer (source: products.go)

Decoded values (`Product`, `SearchResponse`) and JSON bytes are opaque to
the claims, so both are `String`s; `json.Unmarshal` / `c.parseResponse` /
`json.Marshal` are oracle functions in the environment. -/

/-- Go's `unicode.IsSpace` on the characters `strings.TrimSpace` trims
(ASCII plus the Latin-1 fast path; the higher Unicode White_Space code
points do not occur in the claims). -/
def goIsSpace (c : Char) : Bool :=
  c = ' ' || c = '\t' || c = '\n' || c = '\x0b' || c = '\x0c' || c = '\r' ||
    c = '\x85' || c = '\xa0'

/-- `strings.TrimSpace`: drop leading and trailing whitespace. -/
def goTrimSpace (s : String) : String :=
  String.mk (((s.data.dropWhile goIsSpace).reverse.dropWhile goIsSpace).reverse)

/-- Errors of the products-layer entry points: the `"... is required"`
validation error, an error propagated from `doRequest`, and a
`parseResponse` / envelope failure. -/
inductive ProdErr
  | required
  | request (e : DoErr)
  | parse
deriving DecidableEq, Repr

/-- Environment of a products-layer call: the client state, its retry
configuration and jitter draws, and the JSON oracles.  `unmarshal b` is
`json.Unmarshal(b, &v)` (`none` on error), `parse b` is `c.parseResponse`,
`marshal v` is `json.Marshal(v)` (`none` on error). -/
structure ProductsEnv where
  client : ClientEnv
  retry : RetryConfig
  draws : ℕ → ℚ
  unmarshal : String → Option String
  parse : String → Option String
  marshal : String → Option String

/-- `getCacheKeyProduct(productCode)`: `"product:" + currency + ":" + code`. -/
def getCacheKeyProduct (currency productCode : String) : String :=
  "product:" ++ currency ++ ":" ++ productCode

/-- `getCacheKeySearch(keyword)`: `"search:" + currency + ":" + keyword`. -/
def getCacheKeySearch (currency keyword : String) : String :=
  "search:" ++ currency ++ ":" ++ keyword

/-- `GetProductDetails(ctx, productCode)`: trim and validate the code, try
the products-layer cache, perform `doRequest(GET, "/product/detail",
productCode=...)`, parse, and on success store the marshalled product under
the product cache key with a `5*time.Minute` TTL. -/
def GetProductDetails (env : ProductsEnv) (productCode : String) :
    Except ProdErr String × Effects :=
  let productCode := goTrimSpace productCode
  if productCode = "" then
    (.error .required, Effects.none)
  else
    let cacheKey := getCacheKeyProduct env.client.currency productCode
    let eff :=
      if env.client.hasCache then { Effects.none with cacheGets := 1 } else Effects.none
    let hit :=
      if env.client.hasCache then
        match env.client.cacheLookup cacheKey with
        | some cached => env.unmarshal cached
        | none => none
      else none
    match hit with
    | some product => (.ok product, eff)
    | none =>
        let (body, eff2) :=
          doRequest env.client env.retry env.draws "GET" "/product/detail"
            (some ("productCode=" ++ productCode))
        let eff :=
          { attempts := eff.attempts + eff2.attempts
            tokens := eff.tokens + eff2.tokens
            sleeps := eff.sleeps ++ eff2.sleeps
            cacheGets := eff.cacheGets + eff2.cacheGets
            cacheSets := eff.cacheSets ++ eff2.cacheSets }
        match body with
        | .error e => (.error (.request e), eff)
        | .ok body =>
            match env.parse body with
            | none => (.error .parse, eff)
            | some product =>
                let eff :=
                  if env.client.hasCache then
                    match env.marshal product with
                    | some cacheData =>
                        { eff with
                          cacheSets := eff.cacheSets ++ [(cacheKey, cacheData, 5 * minuteNs)] }
                    | none => eff
                  else eff
                (.ok product, eff)

/-- `KeywordSearch(ctx, req)`: trim and validate the keyword, try the
products-layer cache, perform `doRequest(POST, "/search/v2/global", body)`,
parse the wrapper, and on success store the marshalled response under the
search cache key with a `5*time.Minute` TTL. -/
def KeywordSearch (env : ProductsEnv) (keyword : String) :
    Except ProdErr String × Effects :=
  let keyword := goTrimSpace keyword
  if keyword = "" then
    (.error .required, Effects.none)
  else
    let cacheKey := getCacheKeySearch env.client.currency keyword
    let eff :=
      if env.client.hasCache then { Effects.none with cacheGets := 1 } else Effects.none
    let hit :=
      if env.client.hasCache then
        match env.client.cacheLookup cacheKey with
        | some cached => env.unmarshal cached
        | none => none
      else none
    match hit with
    | some resp => (.ok resp, eff)
    | none =>
        let (body, eff2) :=
          doRequest env.client env.retry env.draws "POST" "/search/v2/global" Option.none
        let eff :=
          { attempts := eff.attempts + eff2.attempts
            tokens := eff.tokens + eff2.tokens
            sleeps := eff.sleeps ++ eff2.sleeps
            cacheGets := eff.cacheGets + eff2.cacheGets
            cacheSets := eff.cacheSets ++ eff2.cacheSets }
        match body with
        | .error e => (.error (.request e), eff)
        | .ok body =>
            match env.parse body with
            | none => (.error .parse, eff)
            | some resp =>
                let eff :=
                  if env.client.hasCache then
                    match env.marshal resp with
                    | some cacheData =>
                        { eff with
                          cacheSets := eff.cacheSets ++ [(cacheKey, cacheData, 5 * minuteNs)] }
                    | none => eff
                  else eff
                (.ok resp, eff)

/-! ## Auxiliary facts -/

/-- The capping `if max < x then max else x` is `min x max`. -/
lemma capAt (max x : ℚ) : (if max < x then max else x) = min x max := by
  rcases lt_or_le max x with h | h
  · rw [if_pos h, min_eq_right h.le]
  · rw [if_neg (not_lt.mpr h), min_eq_left h]

/-! ## Claims -/

/-- **C2, counterexample.** The claim says the status code takes precedence
when both an error and a status are present, so that a timeout error paired
with fatal status 404 is not retried.  In the source the error checks run
first and short-circuit: `shouldRetry(timeout-net-error, 404)` is `true`. -/
theorem shouldRetry_timeout_404_retries :
    shouldRetry (some (.net .opError true)) 404 = true := by
  decide

/-- **C2, amended.** `shouldRetry(e, s)` returns true iff `e` is a timeout
(the only transient network failures the source recognizes are timeouts) OR
`s ∈ {429, 500, 502, 503, 504}` — the error takes precedence when both are
present, so a timeout error paired with fatal status 404 IS retried. -/
theorem shouldRetry_iff (e : Option GoErr) (s : ℤ) :
    shouldRetry e s = true ↔ (isTimeoutError e = true ∨ statusSwitch s = true) := by
  rcases e with _ | e
  · simp [shouldRetry, isTimeoutError]
  · rcases e with ⟨kind, timeout⟩ | _
    · cases kind <;> cases timeout <;>
        simp [shouldRetry, isTimeoutError, isTemporaryNetworkError, isTemporaryNetErr]
    · simp [shouldRetry, isTimeoutError, isTemporaryNetworkError]

/-- **C7.** With `InitialBackoff = 100ms`, `Multiplier = 2.0`, `Jitter = 0`,
`calculateBackoff` yields 100ms, 200ms and 400ms at attempts 0, 1, 2, each
capped at `MaxBackoff` (for every `MaxBackoff`, jitter draw and retry
count). -/
theorem calculateBackoff_growth (MaxB draw : ℚ) (mr : ℕ) :
    calculateBackoff ⟨mr, 100 * msNs, MaxB, 2, 0⟩ 0 draw = min (100 * msNs) MaxB ∧
    calculateBackoff ⟨mr, 100 * msNs, MaxB, 2, 0⟩ 1 draw = min (200 * msNs) MaxB ∧
    calculateBackoff ⟨mr, 100 * msNs, MaxB, 2, 0⟩ 2 draw = min (400 * msNs) MaxB := by
  refine ⟨?_, ?_, ?_⟩ <;>
    · simp only [calculateBackoff, pow, msNs,
        show ((0:ℤ).toNat) = 0 from rfl, show ((1:ℤ).toNat) = 1 from rfl,
        show ((2:ℤ).toNat) = 2 from rfl]
      norm_num [capAt]

/-- **C10.** The cap at `MaxBackoff` is applied after the jitter
perturbation, so `calculateBackoff` never returns more than `MaxBackoff`
(for every configuration, attempt index and jitter draw — no sign
hypothesis is even needed). -/
theorem calculateBackoff_le_max (c : RetryConfig) (k : ℤ) (draw : ℚ) :
    calculateBackoff c k draw ≤ c.MaxBackoff := by
  simp only [calculateBackoff]
  split <;> split <;> linarith [le_refl c.MaxBackoff]

/-- **C4.** For `0 ≤ Jitter ≤ 1` and any jitter draw in `[0, 1]`, the
computed delay lies within `[base*(1-Jitter), base*(1+Jitter)]` where
`base = InitialBackoff * Multiplier^k` capped at `MaxBackoff` (the
configuration's durations and multiplier being nonnegative). -/
theorem calculateBackoff_jitter_bound (c : RetryConfig) (k : ℤ) (draw : ℚ)
    (hJ0 : 0 ≤ c.Jitter) (hJ1 : c.Jitter ≤ 1)
    (hd0 : 0 ≤ draw) (hd1 : draw ≤ 1)
    (hI : 0 ≤ c.InitialBackoff) (hM : 0 ≤ c.Multiplier) (hMax : 0 ≤ c.MaxBackoff) :
    min (c.InitialBackoff * pow c.Multiplier k) c.MaxBackoff * (1 - c.Jitter)
      ≤ calculateBackoff c k draw ∧
    calculateBackoff c k draw
      ≤ min (c.InitialBackoff * pow c.Multiplier k) c.MaxBackoff * (1 + c.Jitter) := by
  have hu : 0 ≤ c.InitialBackoff * pow c.Multiplier k :=
    mul_nonneg hI (pow_nonneg hM _)
  set u := c.InitialBackoff * pow c.Multiplier k with hu_def
  set J := c.Jitter with hJ_def
  have hbase_le_u : min u c.MaxBackoff ≤ u := min_le_left _ _
  have hbase_le_max : min u c.MaxBackoff ≤ c.MaxBackoff := min_le_right _ _
  have hbase0 : 0 ≤ min u c.MaxBackoff := le_min hu hMax
  simp only [calculateBackoff, ← hu_def, ← hJ_def]
  by_cases hJpos : 0 < J
  · rw [if_pos hJpos]
    have hprod0 : 0 ≤ u * J := mul_nonneg hu hJ0
    have hεlow : -(u * J) ≤ u * J * (draw * 2 - 1) := by
      have := mul_le_mul_of_nonneg_left (by linarith : (-1 : ℚ) ≤ draw * 2 - 1) hprod0
      linarith
    have hεhigh : u * J * (draw * 2 - 1) ≤ u * J := by
      have := mul_le_mul_of_nonneg_left (by linarith : draw * 2 - 1 ≤ (1 : ℚ)) hprod0
      linarith
    have hbase_low : min u c.MaxBackoff * (1 - J) ≤ u * (1 - J) :=
      mul_le_mul_of_nonneg_right hbase_le_u (by linarith)
    have hbaseJ : 0 ≤ min u c.MaxBackoff * J := mul_nonneg hbase0 hJ0
    constructor
    · -- lower bound
      split
      · -- capped: result = MaxBackoff
        nlinarith [mul_le_mul_of_nonneg_right hbase_le_max (by linarith : (0:ℚ) ≤ 1 - J)]
      · -- uncapped: result = u + u*J*ε
        nlinarith
    · -- upper bound
      split
      · -- capped: result = MaxBackoff ≤ base*(1+J)
        rcases le_total u c.MaxBackoff with h | h
        · rw [min_eq_left h]
          nlinarith
        · rw [min_eq_right h]
          nlinarith
      · -- uncapped: result = u + u*J*ε ≤ base*(1+J)
        rcases le_total u c.MaxBackoff with h | h
        · rw [min_eq_left h]
          nlinarith
        · rw [min_eq_right h]
          nlinarith
  · rw [if_neg hJpos]
    have hJ0' : J = 0 := le_antisymm (not_lt.mp hJpos) hJ0
    rw [hJ0', capAt]
    simp

/-- **C4, witness.** The jitter bound instantiated at the default
configuration, attempt 1 and draw 1/2. -/
theorem calculateBackoff_jitter_bound_witness :
    min (DefaultRetryConfig.InitialBackoff * pow DefaultRetryConfig.Multiplier 1)
        DefaultRetryConfig.MaxBackoff * (1 - DefaultRetryConfig.Jitter)
      ≤ calculateBackoff DefaultRetryConfig 1 (1/2) ∧
    calculateBackoff DefaultRetryConfig 1 (1/2)
      ≤ min (DefaultRetryConfig.InitialBackoff * pow DefaultRetryConfig.Multiplier 1)
          DefaultRetryConfig.MaxBackoff * (1 + DefaultRetryConfig.Jitter) :=
  calculateBackoff_jitter_bound DefaultRetryConfig 1 (1/2)
    (by norm_num [DefaultRetryConfig]) (by norm_num [DefaultRetryConfig])
    (by norm_num) (by norm_num)
    (by norm_num [DefaultRetryConfig, msNs]) (by norm_num [DefaultRetryConfig])
    (by norm_num [DefaultRetryConfig, secondNs])

/-- Every attempt of a transport fails with an outcome `shouldRetry`
classifies as retryable. -/
def AlwaysRetryableFail (transport : ℕ → ExecResult) : Prop :=
  ∀ i, ∃ e s, transport i = .fail e s ∧ shouldRetry (some e) s = true

/-- One-step unfolding of `doRequestLoop` on a positive iteration budget. -/
lemma doRequestLoop_succ (cfg : RetryConfig) (transport : ℕ → ExecResult) (draws : ℕ → ℚ)
    (cacheKey : String) (hasCache : Bool) (attempt remaining : ℕ) (lastErr : Option GoErr)
    (eff : Effects) :
    doRequestLoop cfg transport draws cacheKey hasCache attempt (remaining + 1) lastErr eff =
      (let eff' : Effects :=
        { attempts := eff.attempts + 1
          tokens := eff.tokens + 1
          sleeps := eff.sleeps ++
            (if attempt > 0 then [calculateBackoff cfg ((attempt : ℤ) - 1) (draws attempt)]
             else [])
          cacheGets := eff.cacheGets
          cacheSets := eff.cacheSets }
      match transport attempt with
      | .ok body =>
          (.ok body,
            if cacheKey ≠ "" ∧ hasCache then
              { eff' with cacheSets := eff'.cacheSets ++ [(cacheKey, body, 5 * minuteNs)] }
            else eff')
      | .fail e s =>
          if shouldRetry (some e) s then
            doRequestLoop cfg transport draws cacheKey hasCache (attempt + 1) remaining
              (some e) eff'
          else
            (.error (.execErr e s), eff')) := rfl

/-- Against an always-retryably-failing transport, a loop entered with
`r + 1` iterations left performs exactly `r + 1` further attempts, consumes
one rate-limiter token per attempt, and ends with the retries-exhausted
error wrapping the error of the last attempt (`attempt + r`). -/
lemma doRequestLoop_all_fail (cfg : RetryConfig) (transport : ℕ → ExecResult)
    (draws : ℕ → ℚ) (key : String) (hc : Bool)
    (hfail : AlwaysRetryableFail transport) :
    ∀ (r attempt : ℕ) (lastErr : Option GoErr) (eff : Effects),
      (doRequestLoop cfg transport draws key hc attempt (r + 1) lastErr eff).1 =
        .error (.maxRetriesExceeded ((transport (attempt + r)).errOf)) ∧
      (doRequestLoop cfg transport draws key hc attempt (r + 1) lastErr eff).2.attempts =
        eff.attempts + (r + 1) ∧
      (doRequestLoop cfg transport draws key hc attempt (r + 1) lastErr eff).2.tokens =
        eff.tokens + (r + 1) := by
  intro r
  induction r with
  | zero =>
    intro attempt lastErr eff
    obtain ⟨e, s, ht, hr⟩ := hfail attempt
    simp [doRequestLoop, ht, hr, ExecResult.errOf]
  | succ r ih =>
    intro attempt lastErr eff
    obtain ⟨e, s, ht, hr⟩ := hfail attempt
    rw [doRequestLoop_succ]
    simp only [ht, hr, if_true]
    refine ⟨?_, ?_, ?_⟩
    · rw [(ih (attempt + 1) (some e) _).1,
        show attempt + 1 + r = attempt + (r + 1) from by omega]
    · rw [(ih (attempt + 1) (some e) _).2.1]
      show eff.attempts + 1 + (r + 1) = eff.attempts + (r + 1 + 1)
      omega
    · rw [(ih (attempt + 1) (some e) _).2.2]
      show eff.tokens + 1 + (r + 1) = eff.tokens + (r + 1 + 1)
      omega

/-- **C1.** With `MaxRetries = 3`, a missing cache entry and a transport
whose every attempt fails retryably, `doRequest` performs exactly 4
transport attempts (1 initial + 3 retries) and returns no body, only the
`"max retries exceeded"` error wrapping the error of the last (fourth)
attempt. -/
theorem doRequest_retries_exhausted (env : ClientEnv) (cfg : RetryConfig)
    (draws : ℕ → ℚ) (method path : String) (params : Option String)
    (hmr : cfg.MaxRetries = 3)
    (hmiss : ∀ k, env.cacheLookup k = none)
    (hfail : AlwaysRetryableFail env.transport) :
    (doRequest env cfg draws method path params).1 =
      .error (.maxRetriesExceeded ((env.transport 3).errOf)) ∧
    (doRequest env cfg draws method path params).2.attempts = 4 := by
  have key := doRequestLoop_all_fail cfg env.transport draws
  simp only [doRequest, hmr, hmiss]
  split
  · refine ⟨(key _ _ hfail 3 0 _ _).1, ?_⟩
    rw [(key _ _ hfail 3 0 _ _).2.1]
    rfl
  · refine ⟨(key _ _ hfail 3 0 _ _).1, ?_⟩
    rw [(key _ _ hfail 3 0 _ _).2.1]
    rfl

/-- Concrete client used to witness C1: no cache, every transport attempt
fails with a plain (non-net) error and status 503. -/
def envC1 : ClientEnv :=
  { hasCache := false
    currency := "USD"
    cacheLookup := fun _ => none
    transport := fun _ => .fail .plain 503 }

/-- **C1, witness.** The retry ceiling evaluated on a concrete client with
the default configuration (`MaxRetries = 3`). -/
theorem doRequest_retries_exhausted_witness :
    (doRequest envC1 DefaultRetryConfig (fun _ => 0) "POST" "/search/v2/global" Option.none).1 =
      .error (.maxRetriesExceeded ((envC1.transport 3).errOf)) ∧
    (doRequest envC1 DefaultRetryConfig (fun _ => 0) "POST" "/search/v2/global"
        Option.none).2.attempts = 4 :=
  doRequest_retries_exhausted envC1 DefaultRetryConfig (fun _ => 0) "POST" "/search/v2/global"
    Option.none rfl (fun _ => rfl) (fun _ => ⟨.plain, 503, rfl, by decide⟩)

/-- **C6.** A GET with a configured cache whose lookup hits returns the
cached bytes with no error and performs no transport attempt, consumes no
rate-limiter token, sleeps no backoff and writes nothing — the single side
effect is the one `cache.Get`. -/
theorem doRequest_cache_hit (env : ClientEnv) (cfg : RetryConfig) (draws : ℕ → ℚ)
    (path : String) (params : Option String) (v : String)
    (hc : env.hasCache = true)
    (hhit : env.cacheLookup (buildCacheKey env.currency "GET" path params) = some v) :
    doRequest env cfg draws "GET" path params =
      (.ok v, { attempts := 0, tokens := 0, sleeps := [], cacheGets := 1, cacheSets := [] }) := by
  simp only [doRequest, hc, and_true, if_pos rfl, hhit]
  rfl

/-- Concrete client used to witness C6: cache configured and every key
hits. -/
def envC6 : ClientEnv :=
  { hasCache := true
    currency := "USD"
    cacheLookup := fun _ => some "cached-body"
    transport := fun _ => .ok "fresh-body" }

/-- **C6, witness.** The cache-hit fast path evaluated on a concrete
client. -/
theorem doRequest_cache_hit_witness :
    doRequest envC6 DefaultRetryConfig (fun _ => 0) "GET" "/product/detail"
        (some "productCode=C8734") =
      (.ok "cached-body",
        { attempts := 0, tokens := 0, sleeps := [], cacheGets := 1, cacheSets := [] }) :=
  doRequest_cache_hit envC6 DefaultRetryConfig (fun _ => 0) "/product/detail"
    (some "productCode=C8734") "cached-body" rfl rfl

/-- A string made only of whitespace trims to the empty string. -/
lemma goTrimSpace_all_space (s : String) (h : ∀ c ∈ s.data, goIsSpace c = true) :
    goTrimSpace s = "" := by
  unfold goTrimSpace
  rw [List.dropWhile_eq_nil_iff.mpr h]
  rfl

/-- **C9.** An empty or whitespace-only keyword makes `KeywordSearch` fail
with the validation error and no side effects (no cache access, no
rate-limiter token, no transport attempt); `GetProductDetails` behaves
identically on an empty or whitespace-only product code. -/
theorem blank_input_rejected_without_effects (env : ProductsEnv) (s : String)
    (h : ∀ c ∈ s.data, goIsSpace c = true) :
    KeywordSearch env s = (.error .required, Effects.none) ∧
    GetProductDetails env s = (.error .required, Effects.none) := by
  have ht := goTrimSpace_all_space s h
  constructor
  · rw [KeywordSearch, ht]
    rfl
  · rw [GetProductDetails, ht]
    rfl

/-- Concrete products-layer environment used by witnesses: cache configured
but empty, transport succeeding, trivial JSON oracles. -/
def envProd : ProductsEnv :=
  { client :=
      { hasCache := true
        currency := "USD"
        cacheLookup := fun _ => none
        transport := fun _ => .ok "raw-body" }
    retry := DefaultRetryConfig
    draws := fun _ => 0
    unmarshal := fun b => some b
    parse := fun _ => some "decoded-result"
    marshal := fun _ => some "marshalled-result" }

/-- **C9, witness.** A whitespace-only input (`" \t"`) evaluated on the
concrete environment. -/
theorem blank_input_rejected_without_effects_witness :
    KeywordSearch envProd " \t" = (.error .required, Effects.none) ∧
    GetProductDetails envProd " \t" = (.error .required, Effects.none) :=
  blank_input_rejected_without_effects envProd " \t" (by decide)

/-- **C8 (code bug).** On a successful cache-eligible `GetProductDetails`
call, every cache write uses the hardcoded `5*time.Minute` TTL (both the
orchestrator's raw-body write and the products layer's decoded-product
write), while the repository's own `TestDefaultCacheConfig` requires the
default details TTL to be 10 minutes — which no code path ever uses. -/
theorem getProductDetails_ttl_is_5min_not_DetailsTTL :
    (GetProductDetails envProd "C8734").1 = .ok "decoded-result" ∧
    (GetProductDetails envProd "C8734").2.cacheSets =
      [(buildCacheKey "USD" "GET" "/product/detail" (some "productCode=C8734"),
          "raw-body", 5 * minuteNs),
        (getCacheKeyProduct "USD" "C8734", "marshalled-result", 5 * minuteNs)] ∧
    DefaultCacheConfig.DetailsTTL = 10 * minuteNs ∧
    (5 : ℚ) * minuteNs ≠ 10 * minuteNs := by
  refine ⟨rfl, rfl, rfl, ?_⟩
  norm_num [minuteNs]

/-- **C3.** Whenever `Wait` ends because the context is cancelled while
waiting for a token, the bucket performs zero token decrements: only the
acquiring return path decrements, never a cancellation return path. -/
theorem wait_cancelled_consumes_no_token (r : RateLimiter) (steps : List WaitStep)
    (h : (r.wait steps).1 = some .cancelled) :
    (r.wait steps).2.2 = 0 := by
  induction steps generalizing r with
  | nil => simp [RateLimiter.wait] at h
  | cons step rest ih =>
    rw [RateLimiter.wait] at h ⊢
    by_cases h1 : (r.refill step.now).tokens ≥ 1
    · rw [if_pos h1] at h
      simp at h
    · rw [if_neg h1] at h ⊢
      by_cases h2 : step.cancelDuringSleep = true
      · rw [if_pos h2]
      · rw [if_neg h2] at h ⊢
        exact ih _ h

/-- **C3, witness.** An empty bucket whose single loop iteration is
cancelled during the sleep: outcome cancelled, zero decrements. -/
theorem wait_cancelled_consumes_no_token_witness :
    (RateLimiter.wait ⟨0, 5, 5, 0⟩ [⟨0, true⟩]).1 = some .cancelled ∧
    (RateLimiter.wait ⟨0, 5, 5, 0⟩ [⟨0, true⟩]).2.2 = 0 := by
  have h : (RateLimiter.wait ⟨0, 5, 5, 0⟩ [⟨0, true⟩]).1 = some .cancelled := by
    rw [RateLimiter.wait]
    norm_num [RateLimiter.refill]
  exact ⟨h, wait_cancelled_consumes_no_token ⟨0, 5, 5, 0⟩ [⟨0, true⟩] h⟩

/-- The token-count invariant of the bucket. -/
def RateLimiter.Inv (r : RateLimiter) : Prop :=
  0 ≤ r.tokens ∧ r.tokens ≤ r.maxTokens

/-- The `Wait`-loop schedule has nondecreasing `time.Now()` observations,
starting no earlier than the given instant (the monotonic clock). -/
def timesValid : ℚ → List WaitStep → Prop
  | _, [] => True
  | t0, step :: rest => t0 ≤ step.now ∧ timesValid step.now rest

/-- The refill step preserves the invariant when the clock did not run
backwards, and touches neither `maxTokens` nor `refillRate`. -/
lemma refill_inv (r : RateLimiter) (now : ℚ) (hinv : r.Inv)
    (hrate : 0 ≤ r.refillRate) (hmono : r.lastRefill ≤ now) :
    (r.refill now).Inv ∧ (r.refill now).lastRefill = now ∧
      (r.refill now).maxTokens = r.maxTokens ∧ (r.refill now).refillRate = r.refillRate := by
  obtain ⟨h0, h1⟩ := hinv
  have hadd : 0 ≤ (now - r.lastRefill) * r.refillRate :=
    mul_nonneg (by linarith) hrate
  refine ⟨⟨?_, ?_⟩, rfl, rfl, rfl⟩
  · show (0:ℚ) ≤
      if r.tokens + (now - r.lastRefill) * r.refillRate > r.maxTokens then r.maxTokens
      else r.tokens + (now - r.lastRefill) * r.refillRate
    split
    · linarith
    · linarith
  · show (if r.tokens + (now - r.lastRefill) * r.refillRate > r.maxTokens then r.maxTokens
      else r.tokens + (now - r.lastRefill) * r.refillRate) ≤ r.maxTokens
    split
    · exact le_refl _
    · next hc => exact le_of_not_lt hc

/-- `Wait` preserves the token-count invariant along any monotone
schedule. -/
lemma wait_inv (steps : List WaitStep) : ∀ r : RateLimiter, r.Inv → 0 ≤ r.refillRate →
    timesValid r.lastRefill steps → ((r.wait steps).2.1).Inv := by
  induction steps with
  | nil => exact fun r hinv _ _ => hinv
  | cons step rest ih =>
    intro r hinv hrate hv
    obtain ⟨hnow, hrest⟩ := hv
    obtain ⟨hinv', hlast, hmax, hrate'⟩ := refill_inv r step.now hinv hrate hnow
    obtain ⟨hi0, hi1⟩ := hinv'
    rw [RateLimiter.wait]
    split
    · next hge =>
      constructor
      · show (0:ℚ) ≤ (r.refill step.now).tokens - 1
        linarith
      · show (r.refill step.now).tokens - 1 ≤ (r.refill step.now).maxTokens
        linarith
    · split
      · exact ⟨hi0, hi1⟩
      · exact ih (r.refill step.now) ⟨hi0, hi1⟩ (by rw [hrate']; exact hrate)
          (by rw [hlast]; exact hrest)

/-- **C5.** For a limiter built by `NewRateLimiter(r)` with `r > 0`, the
invariant `0 ≤ tokens ≤ maxTokens` holds initially and after any `Wait`
call whose loop observes a monotone clock: the lazy refill caps at
capacity and a token is consumed only when at least one is available. -/
theorem newRateLimiter_wait_inv (rps now0 : ℚ) (steps : List WaitStep)
    (hr : 0 < rps) (hv : timesValid now0 steps) :
    (NewRateLimiter rps now0).Inv ∧
      (((NewRateLimiter rps now0).wait steps).2.1).Inv := by
  have hinit : (NewRateLimiter rps now0).Inv := ⟨le_of_lt hr, le_refl _⟩
  exact ⟨hinit, wait_inv steps _ hinit (le_of_lt hr) hv⟩

/-- **C5, witness.** A limiter at 2 req/s exercised over a two-iteration
monotone schedule. -/
theorem newRateLimiter_wait_inv_witness :
    (NewRateLimiter 2 0).Inv ∧
      (((NewRateLimiter 2 0).wait [⟨1, false⟩, ⟨2, true⟩]).2.1).Inv :=
  newRateLimiter_wait_inv 2 0 [⟨1, false⟩, ⟨2, true⟩] (by norm_num)
    (by norm_num [timesValid])

end Lcsc
